import Mathlib

/-!
Verification of makemahjongg (tileset creator for GNOME Mahjongg).

Shallow embedding of `src/makemahjongg/tileutil.py` and
`src/makemahjongg/__main__.py`.

Modelling conventions:
* Python `float` arithmetic in the scale computation is embedded as exact
  rational arithmetic (`ℚ`); Python `int(x)` (truncation toward zero) is
  `pyint`.
* Python `str` values are Lean `String`s; operations that must evaluate in
  the kernel (lexicographic comparison, lowercasing, scanning) work on
  `String.data` (`List Char`, i.e. Unicode code points, matching CPython
  string semantics for the ASCII data handled here).
* PIL images are embedded as symbolic canvases: a `Tile` records its fixed
  canvas size plus the trace of `paste` and `rounded_rectangle` operations
  applied to it; `Image.paste` mutates pixels but never the canvas size,
  `ImageDraw.rounded_rectangle` draws an outline.  The bundled static
  assets (blank.png, blank_selected.png, tileset_blank.png) are not in the
  repository sources; their dimensions are modelled from the spec.
* `Image.open` on a source file can fail (unreadable/corrupt image); a
  `SrcFile` carries a `decodable` flag and the fallible pipeline is
  embedded in `Except`.
-/

/-! ## Layout constants (tileutil.py) -/

def TILE_WIDTH : ℤ := 96

def TILE_CONTENTWIDTH : ℤ := 80

def TILE_HEIGHT : ℤ := 132

def TILE_CONTENTHEIGHT : ℤ := 116

def TILE_CONTENTXOFFSET : ℤ := 6

def TILE_CONTENTYOFFSET : ℤ := -6

def SELECTED_BRIGHTNESS_FACTOR : ℚ := 5 / 4

def BONUS_GROUP_1_INDEX : ℤ := 33

def BONUS_GROUP_2_INDEX : ℤ := 38

/-- `(normal, selected)` outline colors for the two bonus groups; index 0 is
the `None` placeholder, exactly as in `BONUS_GROUP_COLORS` in the source. -/
def BONUS_GROUP_COLORS : List (Option (String × String)) :=
  [none, some ("#d819ea", "#f58bff"), some ("#1dbf4e", "#77e998")]

/-! ## Scale computation (mktilepair, lines 91-101) -/

/-- Python `int(q)`: truncation toward zero. -/
def pyint (q : ℚ) : ℤ := if q < 0 then ⌈q⌉ else ⌊q⌋

/-- The uniform scale factor computed by `mktilepair` for a `w × h` source
image.  Landscape branch (`w > h`): `scale = TILE_CONTENTWIDTH / w`, then if
`int(scale * h) > TILE_CONTENTHEIGHT` the scale is multiplied by
`TILE_CONTENTHEIGHT / int(scale * h)`; the portrait-or-square branch is the
mirror image. -/
def scaleFor (w h : ℤ) : ℚ :=
  if h < w then
    if TILE_CONTENTHEIGHT < pyint ((TILE_CONTENTWIDTH : ℚ) / (w : ℚ) * (h : ℚ)) then
      (TILE_CONTENTWIDTH : ℚ) / (w : ℚ) *
        ((TILE_CONTENTHEIGHT : ℚ) / ((pyint ((TILE_CONTENTWIDTH : ℚ) / (w : ℚ) * (h : ℚ)) : ℤ) : ℚ))
    else
      (TILE_CONTENTWIDTH : ℚ) / (w : ℚ)
  else
    if TILE_CONTENTWIDTH < pyint ((TILE_CONTENTHEIGHT : ℚ) / (h : ℚ) * (w : ℚ)) then
      (TILE_CONTENTHEIGHT : ℚ) / (h : ℚ) *
        ((TILE_CONTENTWIDTH : ℚ) / ((pyint ((TILE_CONTENTHEIGHT : ℚ) / (h : ℚ) * (w : ℚ)) : ℤ) : ℚ))
    else
      (TILE_CONTENTHEIGHT : ℚ) / (h : ℚ)

/-- `w_scaled, h_scaled = int(scale * w), int(scale * h)`. -/
def scaledDims (w h : ℤ) : ℤ × ℤ :=
  (pyint (scaleFor w h * (w : ℚ)), pyint (scaleFor w h * (h : ℚ)))

/-! ## PIL resampling filters -/

/-- The member names of PIL's `Image.Resampling` enum. -/
inductive Resampling where
  | NEAREST
  | LANCZOS
  | BILINEAR
  | BICUBIC
  | BOX
  | HAMMING
deriving DecidableEq, Repr

/-- `value in Image.Resampling.__members__` together with the lookup
`Image.Resampling[value]` (case-sensitive member-name match). -/
def resamplingOfName : String → Option Resampling
  | "NEAREST" => some Resampling.NEAREST
  | "LANCZOS" => some Resampling.LANCZOS
  | "BILINEAR" => some Resampling.BILINEAR
  | "BICUBIC" => some Resampling.BICUBIC
  | "BOX" => some Resampling.BOX
  | "HAMMING" => some Resampling.HAMMING
  | _ => none

/-! ## Filename parameter scanning (re_param and parseparams)

The regex is `__(?P<param>.+?)_(?P<value>.+?)(?=__|\.)` and is used through
`findall`, which collects the non-overlapping matches from left to right.
The matcher below implements exactly the backtracking behaviour of this
pattern: non-greedy `param` (shortest first), literal `_`, non-greedy
`value` (shortest first), and a zero-width lookahead for `__` or `.`;
`.` never matches a newline character. -/

/-- The lookahead `(?=__|\.)`. -/
def lookaheadOK : List Char → Bool
  | '_' :: '_' :: _ => true
  | '.' :: _ => true
  | _ => false

/-- Match `(?P<value>.+?)(?=__|\.)` at the head of `s`, non-greedily:
take one character at a time (never a newline) and stop at the first
position where the lookahead succeeds.  Returns the value group and the
remaining suffix (the lookahead consumes nothing). -/
def matchValue (acc : List Char) : List Char → Option (List Char × List Char)
  | [] => none
  | c :: rest =>
    if c = '\n' then none
    else if lookaheadOK rest then some (acc ++ [c], rest)
    else matchValue (acc ++ [c]) rest

/-- Match `(?P<param>.+?)_(?P<value>.+?)(?=__|\.)` at the head of the input,
with the regex backtracking order: for each candidate end of the non-greedy
`param` group (shortest first) try the literal `_` and then `matchValue`;
on failure extend `param` by one character. -/
def matchParamVal (acc : List Char) : List Char → Option (List Char × List Char × List Char)
  | [] => none
  | c :: rest =>
    if c = '\n' then none
    else
      match rest with
      | '_' :: rest2 =>
        match matchValue [] rest2 with
        | some (v, after) => some (acc ++ [c], v, after)
        | none => matchParamVal (acc ++ [c]) rest
      | _ => matchParamVal (acc ++ [c]) rest

/-- `re_param.findall`: scan left to right; a match can only start at a
literal `__`; after a match the scan resumes at the match end (the
lookahead position).  `fuel` is an upper bound on the number of steps;
every step either consumes at least one character or fails at the very
first position, so `fuel = length of the input` never truncates the scan. -/
def scanParams : ℕ → List Char → List (List Char × List Char)
  | 0, _ => []
  | fuel + 1, s =>
    match s with
    | '_' :: '_' :: rest =>
      match matchParamVal [] rest with
      | some (p, v, after) => (p, v) :: scanParams fuel after
      | none => scanParams fuel ('_' :: rest)
    | _ :: rest => scanParams fuel rest
    | [] => []

/-- `re_param.findall(basename)`. -/
def findall (basename : String) : List (String × String) :=
  (scanParams basename.data.length basename.data).map (fun pv => (String.mk pv.1, String.mk pv.2))

/-- Python `str.lower()` (ASCII range, which is all the source relies on:
the only recognized key is `resample`). -/
def strLower (s : String) : String := String.mk (s.data.map Char.toLower)

/-- A single-quote character, used in the diagnostic message texts. -/
def squote : String := String.mk [Char.ofNat 39]

/-- `f"Invalid value for parameter 'resample'."` -/
def invalidResampleMsg : String := "Invalid value for parameter " ++ squote ++ "resample" ++ squote ++ "."

/-- `f"Unknown parameter '{key}'."` -/
def unknownParamMsg (key : String) : String := "Unknown parameter " ++ squote ++ key ++ squote ++ "."

/-- One iteration of the `for key, value in params` loop of `parseparams`:
state is the `parsed` mapping (only the key `resample` is ever stored, so an
`Option Resampling` is a faithful model of the dict) and the `messages`
list. -/
def applyParam (st : Option Resampling × List String) (kv : String × String) :
    Option Resampling × List String :=
  if strLower kv.1 = "resample" then
    match resamplingOfName kv.2 with
    | some r => (some r, st.2)
    | none => (st.1, st.2 ++ [invalidResampleMsg])
  else
    (st.1, st.2 ++ [unknownParamMsg kv.1])

/-- `parseparams` on a basename: returns the parsed mapping and the
diagnostic messages collected while scanning.  (The source receives a path
and takes `path.basename` first; the model takes the basename directly.) -/
def parseparams (basename : String) : Option Resampling × List String :=
  (findall basename).foldl applyParam (none, [])

/-- The diagnostic block printed by `parseparams` when there are messages:
the basename on its own line followed by each message indented by two
spaces (each `print` appends a newline). -/
def parse_diagnostics (basename : String) : String :=
  let messages := (parseparams basename).2
  if messages.isEmpty then ""
  else messages.foldl (fun acc m => acc ++ "  " ++ m ++ "\n") (basename ++ ":" ++ "\n")

/-- Substring test on character lists (used only to state properties of the
diagnostics). -/
def listContains (needle : List Char) : List Char → Bool
  | [] => needle.isEmpty
  | c :: rest => if needle.isPrefixOf (c :: rest) then true else listContains needle rest

/-- Does this key/value pair store a value: key lowercases to `resample`
and the value is a valid `Image.Resampling` member name? -/
def validResample (kv : String × String) : Bool :=
  strLower kv.1 = "resample" && (resamplingOfName kv.2).isSome

/-- The last key/value pair whose key lowercases to `resample` and whose
value is a valid `Image.Resampling` member name, mapped to that member —
the specification-level description of what `parseparams` stores. -/
def lastValidResample (ps : List (String × String)) : Option Resampling :=
  match ps.reverse.find? validResample with
  | some kv => resamplingOfName kv.2
  | none => none

/-! ## Bonus group classification (check_bonus_group, lines 149-160) -/

/-- `check_bonus_group(i)`: `1` or `2` when the zero-based index `i` is in a
bonus group, otherwise `None`. -/
def check_bonus_group (i : ℤ) : Option ℤ :=
  if 0 ≤ i - BONUS_GROUP_1_INDEX ∧ i - BONUS_GROUP_1_INDEX < 4 then some 1
  else if 0 ≤ i - BONUS_GROUP_2_INDEX ∧ i - BONUS_GROUP_2_INDEX < 4 then some 2
  else none

/-! ## Symbolic image model -/

/-- The resized source image produced by `srcimg.resize(...)` (and, for the
selected variant, `ImageEnhance.Brightness(...).enhance(...)`): its scaled
dimensions, the resampling filter used, the brightness factor applied, and
the source path it came from.  Its own alpha channel is used as the paste
mask. -/
structure ScaledContent where
  source : String
  w : ℤ
  h : ℤ
  resample : Resampling
  brightness : ℚ
deriving DecidableEq

/-- One `rounded_rectangle` call: corner coordinates, radius, stroke width
and outline color. -/
structure FrameOp where
  x0 : ℤ
  y0 : ℤ
  x1 : ℤ
  y1 : ℤ
  radius : ℤ
  strokeWidth : ℤ
  outline : String
deriving DecidableEq

/-- A tile canvas: fixed dimensions, the background asset it was opened
from, and the traces of `paste` and `rounded_rectangle` operations applied
to it (in order). -/
structure Tile where
  width : ℤ
  height : ℤ
  background : String
  pastes : List (ScaledContent × ℤ × ℤ)
  frames : List FrameOp
deriving DecidableEq

/-- Modelled from the spec: `Image.open(IMGFILE_BLANK)` — the bundled
blank-tile background `blank.png` is not under `src/`; per the spec the
static assets are fixed-dimension images whose dimensions define
`TILE_WIDTH × TILE_HEIGHT`. -/
def blankTile : Tile :=
  { width := TILE_WIDTH, height := TILE_HEIGHT, background := "blank.png",
    pastes := [], frames := [] }

/-- Modelled from the spec: `Image.open(IMGFILE_BLANK_SELECTED)`, same
dimensions as the blank tile. -/
def blankSelectedTile : Tile :=
  { width := TILE_WIDTH, height := TILE_HEIGHT, background := "blank_selected.png",
    pastes := [], frames := [] }

/-- `tile.paste(img, (x, y), mask=img)`: records the paste; a PIL paste
draws pixels inside the existing canvas and never changes its size. -/
def pasteContent (t : Tile) (c : ScaledContent) (x y : ℤ) : Tile :=
  { t with pastes := t.pastes ++ [(c, x, y)] }

/-! ## mktilepair (lines 77-117) -/

/-- `mktilepair(source, resample)` for a source image of size `w × h`:
returns the (normal, selected) tile pair.  The normal tile pastes the
scaled content onto the blank background; the selected tile pastes the
same content brightened by `SELECTED_BRIGHTNESS_FACTOR` onto the
blank-selected background, both at the same centered offset. -/
def mktilepair (source : String) (w h : ℤ) (resample : Option Resampling) : Tile × Tile :=
  let dims := scaledDims w h
  let scaledimg : ScaledContent :=
    { source := source, w := dims.1, h := dims.2,
      resample := resample.getD Resampling.LANCZOS, brightness := 1 }
  let x_dst : ℤ := TILE_CONTENTXOFFSET + (TILE_WIDTH - dims.1).fdiv 2
  let y_dst : ℤ := TILE_CONTENTYOFFSET + (TILE_HEIGHT - dims.2).fdiv 2
  let tile := pasteContent blankTile scaledimg x_dst y_dst
  let scaledimg_selected := { scaledimg with brightness := SELECTED_BRIGHTNESS_FACTOR }
  let tile_selected := pasteContent blankSelectedTile scaledimg_selected x_dst y_dst
  (tile, tile_selected)

/-! ## apply_bonus_group_frame (lines 163-182) -/

/-- `ImageDraw.Draw(t)` + `draw.rounded_rectangle(xy, radius=9, outline=c,
width=5)` with the fixed geometry of `apply_bonus_group_frame`. -/
def addFrame (t : Tile) (c : String) : Tile :=
  { t with
    frames := t.frames ++
      [{ x0 := TILE_CONTENTXOFFSET + 8, y0 := 6,
         x1 := TILE_WIDTH - 3, y1 := TILE_CONTENTHEIGHT - 2,
         radius := 9, strokeWidth := 5, outline := c }] }

/-- `apply_bonus_group_frame(bonus_group, tile, tile_selected)`: draws the
group's normal color on the normal tile and its selected color on the
selected tile.  (`BONUS_GROUP_COLORS[bonus_group]` is only ever indexed
with 1 or 2; out-of-range access is a programming error in the source and
is modelled by a default.) -/
def apply_bonus_group_frame (bonus_group : ℤ) (tile tile_selected : Tile) : Tile × Tile :=
  let colors := (BONUS_GROUP_COLORS.getD bonus_group.toNat none).getD ("", "")
  (addFrame tile colors.1, addFrame tile_selected colors.2)

/-! ## mktileset (lines 185-203) and main (__main__.py) -/

/-- A file directly inside the source directory: its basename, the
dimensions of the image it contains, and whether PIL can decode it
(`Image.open` raises on an unreadable/corrupt file). -/
structure SrcFile where
  name : String
  w : ℤ
  h : ℤ
  decodable : Bool
deriving DecidableEq

/-- Lexicographic comparison of code-point sequences — Python's `<=` on
`str`, which underlies `sorted`. -/
def lexLe : List Char → List Char → Bool
  | [], _ => true
  | _ :: _, [] => false
  | a :: as, b :: bs =>
    if a.toNat < b.toNat then true
    else if b.toNat < a.toNat then false
    else lexLe as bs

/-- Ordering of source files by filename, as used by `sorted(glob(...))`. -/
def nameLe (a b : SrcFile) : Prop := lexLe a.name.data b.name.data = true

instance : DecidableRel nameLe := fun a b => inferInstanceAs (Decidable (lexLe a.name.data b.name.data = true))

/-- `sorted(glob(f"{source_dir}/*"))`: the direct contents of the source
directory in lexicographic filename order (Python's `sorted` is a stable
comparison sort; on a duplicate-free list of names any stable sort by the
same order, such as insertion sort, computes the same result). -/
def sortfiles (files : List SrcFile) : List SrcFile :=
  List.insertionSort nameLe files

/-- The tileset canvas: its fixed dimensions and the trace of tile pastes
applied to it. -/
structure Tileset where
  width : ℤ
  height : ℤ
  pastes : List (Tile × ℤ × ℤ)
deriving DecidableEq

/-- Modelled from the spec: `Image.open(IMGFILE_TILESET_BLANK)` — the
bundled `tileset_blank.png` is not under `src/`; per the spec its
dimensions are `41 × TILE_WIDTH` by `2 × TILE_HEIGHT`. -/
def TILESET_BLANK : Tileset :=
  { width := 41 * TILE_WIDTH, height := 2 * TILE_HEIGHT, pastes := [] }

/-- The bonus-marking step of the loop body: `bonus_group =
check_bonus_group(i); if bonus_group: apply_bonus_group_frame(...)`
(`check_bonus_group` returns `1`, `2` or `None`, so Python truthiness
coincides with the `Option` match). -/
def applyBonus (i : ℕ) (pr : Tile × Tile) : Tile × Tile :=
  match check_bonus_group (i : ℤ) with
  | some g => apply_bonus_group_frame g pr.1 pr.2
  | none => pr

/-- The per-file work of one loop iteration of `mktileset` (excluding the
pastes onto the tileset canvas): parse parameters from the filename, build
the tile pair, apply the bonus frame when the index is in a bonus group. -/
def processfile (i : ℕ) (f : SrcFile) : Tile × Tile :=
  applyBonus i (mktilepair f.name f.w f.h (parseparams f.name).1)

/-- `tileset.paste(tile, (i * TILE_WIDTH, 0))` and
`tileset.paste(tile_selected, (i * TILE_WIDTH, TILE_HEIGHT))`. -/
def placetiles (ts : Tileset) (i : ℕ) (pr : Tile × Tile) : Tileset :=
  { ts with
    pastes := ts.pastes ++
      [(pr.1, ((i : ℤ) * TILE_WIDTH, 0)), (pr.2, ((i : ℤ) * TILE_WIDTH, TILE_HEIGHT))] }

/-- The `for i, file in enumerate(...)` loop of `mktileset`, success path. -/
def buildTiles : Tileset → List (ℕ × SrcFile) → Tileset
  | ts, [] => ts
  | ts, p :: rest => buildTiles (placetiles ts p.1 (processfile p.1 p.2)) rest

/-- `mktileset(source_dir)` when every source image decodes: open the blank
tileset canvas and run the enumerate loop over the sorted directory
contents. -/
def mktilesetPure (files : List SrcFile) : Tileset :=
  buildTiles TILESET_BLANK (sortfiles files).enum

/-- `Image.open(source)` inside `mktilepair`: raises (modelled as
`Except.error` carrying the offending path) when the file cannot be
decoded. -/
def mktilepairE (f : SrcFile) (resample : Option Resampling) : Except String (Tile × Tile) :=
  if f.decodable then Except.ok (mktilepair f.name f.w f.h resample) else Except.error f.name

/-- The per-file work of one loop iteration, with the decode failure mode. -/
def processfileE (i : ℕ) (f : SrcFile) : Except String (Tile × Tile) :=
  match mktilepairE f (parseparams f.name).1 with
  | Except.error e => Except.error e
  | Except.ok pr => Except.ok (applyBonus i pr)

/-- The enumerate loop with exception propagation: a raise aborts the loop
and propagates out of `mktileset`. -/
def buildTilesE : Tileset → List (ℕ × SrcFile) → Except String Tileset
  | ts, [] => Except.ok ts
  | ts, p :: rest =>
    match processfileE p.1 p.2 with
    | Except.error e => Except.error e
    | Except.ok pr => buildTilesE (placetiles ts p.1 pr) rest

/-- `mktileset(source_dir)` with the decode failure mode. -/
def mktilesetE (files : List SrcFile) : Except String Tileset :=
  buildTilesE TILESET_BLANK (sortfiles files).enum

/-- The file writes performed by `main` in `__main__.py`: `tileset =
mktileset(source_dir)` followed by the single `tileset.save(output_file)`;
an exception escaping `mktileset` aborts the run before any write. -/
def mainWrites (files : List SrcFile) (output_file : String) : List (String × Tileset) :=
  match mktilesetE files with
  | Except.error _ => []
  | Except.ok tileset => [(output_file, tileset)]

/-- The two pastes contributed to the tileset canvas by the file at
zero-based sorted position `i` (used to state the closed form of
`mktileset`). -/
def pasteOps (p : ℕ × SrcFile) : List (Tile × ℤ × ℤ) :=
  [((processfile p.1 p.2).1, ((p.1 : ℤ) * TILE_WIDTH, 0)),
   ((processfile p.1 p.2).2, ((p.1 : ℤ) * TILE_WIDTH, TILE_HEIGHT))]

/-! ## Concrete inputs used by witnesses and evaluations -/

/-- A directory of exactly 41 valid (decodable) 1×1 images with distinct
single-character names in code-point order `A`, `B`, …. -/
def files41 : List SrcFile :=
  (List.range 41).map
    (fun n => { name := String.mk [Char.ofNat (65 + n)], w := 1, h := 1, decodable := true })

/-- A small unsorted directory of valid images. -/
def filesW : List SrcFile :=
  [{ name := "b.png", w := 2, h := 1, decodable := true },
   { name := "a.png", w := 3, h := 4, decodable := true },
   { name := "c.png", w := 1, h := 1, decodable := true }]

/-- A directory containing one undecodable file. -/
def badFiles : List SrcFile :=
  [{ name := "bad.png", w := 1, h := 1, decodable := false }]

/-! ## Helper lemmas: pyint and the two-step fit -/

lemma pyint_of_nonneg (q : ℚ) (h : 0 ≤ q) : pyint q = ⌊q⌋ := by
  unfold pyint
  rw [if_neg (not_lt.mpr h)]

lemma pyint_intCast (n : ℤ) : pyint ((n : ℚ)) = n := by
  unfold pyint
  split <;> simp

lemma pyint_le {q : ℚ} {c : ℤ} (h0 : 0 ≤ q) (h1 : q < (c : ℚ) + 1) : pyint q ≤ c := by
  rw [pyint_of_nonneg _ h0]
  have h2 : ⌊q⌋ < c + 1 := Int.floor_lt.mpr (by push_cast; linarith)
  omega

/-- The two-step fit of `mktilepair`, abstracted over the branch: `cl` is
the content bound along the longer axis `l`, `cs` the bound along the other
axis `m`.  Both scaled dimensions respect their bounds. -/
lemma fit_le (cl cs l m : ℤ) (hcl : 0 < cl) (hcs : 0 < cs) (hl : 1 ≤ l) (hm : 1 ≤ m) :
    pyint ((if cs < pyint ((cl : ℚ) / (l : ℚ) * (m : ℚ)) then
        (cl : ℚ) / (l : ℚ) * ((cs : ℚ) / ((pyint ((cl : ℚ) / (l : ℚ) * (m : ℚ)) : ℤ) : ℚ))
      else (cl : ℚ) / (l : ℚ)) * (l : ℚ)) ≤ cl ∧
    pyint ((if cs < pyint ((cl : ℚ) / (l : ℚ) * (m : ℚ)) then
        (cl : ℚ) / (l : ℚ) * ((cs : ℚ) / ((pyint ((cl : ℚ) / (l : ℚ) * (m : ℚ)) : ℤ) : ℚ))
      else (cl : ℚ) / (l : ℚ)) * (m : ℚ)) ≤ cs := by
  have hl0 : (0 : ℚ) < (l : ℚ) := by exact_mod_cast hl
  have hm0 : (0 : ℚ) < (m : ℚ) := by exact_mod_cast hm
  have hcl0 : (0 : ℚ) < (cl : ℚ) := by exact_mod_cast hcl
  have hcs0 : (0 : ℚ) < (cs : ℚ) := by exact_mod_cast hcs
  have hlne : (l : ℚ) ≠ 0 := ne_of_gt hl0
  have ht0 : 0 ≤ (cl : ℚ) / (l : ℚ) * (m : ℚ) :=
    mul_nonneg (div_nonneg hcl0.le hl0.le) hm0.le
  set d : ℤ := pyint ((cl : ℚ) / (l : ℚ) * (m : ℚ)) with hd
  have hdfloor : d = ⌊(cl : ℚ) / (l : ℚ) * (m : ℚ)⌋ := pyint_of_nonneg _ ht0
  split_ifs with hshrink
  · have hd0 : (0 : ℤ) < d := lt_trans hcs hshrink
    have hdq : (0 : ℚ) < (d : ℚ) := by exact_mod_cast hd0
    have hcsd : (cs : ℚ) + 1 ≤ (d : ℚ) := by exact_mod_cast hshrink
    have ht_lt : (cl : ℚ) / (l : ℚ) * (m : ℚ) < (d : ℚ) + 1 := by
      rw [hdfloor]
      exact_mod_cast Int.lt_floor_add_one ((cl : ℚ) / (l : ℚ) * (m : ℚ))
    constructor
    · have e1 : (cl : ℚ) / (l : ℚ) * ((cs : ℚ) / (d : ℚ)) * (l : ℚ) =
          (cl : ℚ) * (cs : ℚ) / (d : ℚ) := by
        field_simp
        ring
      rw [e1]
      refine pyint_le (by positivity) ?_
      rw [div_lt_iff₀ hdq]
      nlinarith
    · have e2 : (cl : ℚ) / (l : ℚ) * ((cs : ℚ) / (d : ℚ)) * (m : ℚ) =
          ((cl : ℚ) / (l : ℚ) * (m : ℚ)) * (cs : ℚ) / (d : ℚ) := by
        ring
      rw [e2]
      refine pyint_le (by positivity) ?_
      rw [div_lt_iff₀ hdq]
      nlinarith
  · constructor
    · rw [div_mul_cancel₀ _ hlne, pyint_intCast]
    · rw [← hd]
      omega

lemma scaleFor_pos (w h : ℤ) (hw : 1 ≤ w) (hh : 1 ≤ h) : 0 < scaleFor w h := by
  have hw0 : (0 : ℚ) < (w : ℚ) := by exact_mod_cast hw
  have hh0 : (0 : ℚ) < (h : ℚ) := by exact_mod_cast hh
  have hcw : (0 : ℚ) < (TILE_CONTENTWIDTH : ℚ) := by norm_num [TILE_CONTENTWIDTH]
  have hch : (0 : ℚ) < (TILE_CONTENTHEIGHT : ℚ) := by norm_num [TILE_CONTENTHEIGHT]
  unfold scaleFor
  split_ifs with h1 h2 h3
  · have hd0 : (0 : ℤ) < pyint ((TILE_CONTENTWIDTH : ℚ) / (w : ℚ) * (h : ℚ)) := by
      have : (0 : ℤ) < TILE_CONTENTHEIGHT := by decide
      omega
    have hdq : (0 : ℚ) < ((pyint ((TILE_CONTENTWIDTH : ℚ) / (w : ℚ) * (h : ℚ)) : ℤ) : ℚ) := by
      exact_mod_cast hd0
    exact mul_pos (div_pos hcw hw0) (div_pos hch hdq)
  · exact div_pos hcw hw0
  · have hd0 : (0 : ℤ) < pyint ((TILE_CONTENTHEIGHT : ℚ) / (h : ℚ) * (w : ℚ)) := by
      have : (0 : ℤ) < TILE_CONTENTWIDTH := by decide
      omega
    have hdq : (0 : ℚ) < ((pyint ((TILE_CONTENTHEIGHT : ℚ) / (h : ℚ) * (w : ℚ)) : ℤ) : ℚ) := by
      exact_mod_cast hd0
    exact mul_pos (div_pos hch hh0) (div_pos hcw hdq)
  · exact div_pos hch hh0

/-! ## Helper lemmas: lexicographic order -/

lemma lexLe_total : ∀ as bs : List Char, lexLe as bs = true ∨ lexLe bs as = true := by
  intro as
  induction as with
  | nil => intro bs; left; rfl
  | cons a as ih =>
    intro bs
    cases bs with
    | nil => right; rfl
    | cons b bs =>
      by_cases h1 : a.toNat < b.toNat
      · left; simp [lexLe, h1]
      · by_cases h2 : b.toNat < a.toNat
        · right; simp [lexLe, h2]
        · rcases ih bs with h | h
          · left; simp [lexLe, h1, h2, h]
          · right; simp [lexLe, h1, h2, h]

lemma lexLe_trans : ∀ as bs cs : List Char,
    lexLe as bs = true → lexLe bs cs = true → lexLe as cs = true := by
  intro as
  induction as with
  | nil => intro bs cs h1 h2; rfl
  | cons a as ih =>
    intro bs cs h1 h2
    cases bs with
    | nil => simp [lexLe] at h1
    | cons b bs =>
      cases cs with
      | nil => simp [lexLe] at h2
      | cons c cs =>
        simp only [lexLe] at h1 h2 ⊢
        rcases lt_trichotomy a.toNat b.toNat with hab | hab | hab
        · rcases lt_trichotomy b.toNat c.toNat with hbc | hbc | hbc
          · rw [if_pos (show a.toNat < c.toNat by omega)]
          · rw [if_pos (show a.toNat < c.toNat by omega)]
          · rw [if_neg (by omega), if_pos hbc] at h2
            exact absurd h2 (by simp)
        · rcases lt_trichotomy b.toNat c.toNat with hbc | hbc | hbc
          · rw [if_pos (show a.toNat < c.toNat by omega)]
          · rw [if_neg (by omega), if_neg (by omega)] at h1
            rw [if_neg (by omega), if_neg (by omega)] at h2
            rw [if_neg (by omega), if_neg (by omega)]
            exact ih bs cs h1 h2
          · rw [if_neg (by omega), if_pos hbc] at h2
            exact absurd h2 (by simp)
        · rw [if_neg (by omega), if_pos hab] at h1
          exact absurd h1 (by simp)

instance : IsTotal SrcFile nameLe :=
  ⟨fun a b => lexLe_total a.name.data b.name.data⟩

instance : IsTrans SrcFile nameLe :=
  ⟨fun a b c => lexLe_trans a.name.data b.name.data c.name.data⟩

/-! ## Helper lemmas: the assembly loop -/

lemma buildTiles_pastes : ∀ (l : List (ℕ × SrcFile)) (ts : Tileset),
    (buildTiles ts l).pastes = ts.pastes ++ l.flatMap pasteOps := by
  intro l
  induction l with
  | nil => intro ts; simp [buildTiles]
  | cons p rest ih =>
    intro ts
    rw [buildTiles, ih]
    simp [placetiles, pasteOps, List.append_assoc]

lemma buildTiles_size : ∀ (l : List (ℕ × SrcFile)) (ts : Tileset),
    (buildTiles ts l).width = ts.width ∧ (buildTiles ts l).height = ts.height := by
  intro l
  induction l with
  | nil => intro ts; exact ⟨rfl, rfl⟩
  | cons p rest ih =>
    intro ts
    rw [buildTiles]
    exact ih (placetiles ts p.1 (processfile p.1 p.2))

lemma processfileE_ok (i : ℕ) (f : SrcFile) (h : f.decodable = true) :
    processfileE i f = Except.ok (processfile i f) := by
  simp [processfileE, mktilepairE, h, processfile]

lemma buildTilesE_ok : ∀ (l : List (ℕ × SrcFile)) (ts : Tileset),
    (∀ p ∈ l, p.2.decodable = true) → buildTilesE ts l = Except.ok (buildTiles ts l) := by
  intro l
  induction l with
  | nil => intro ts _; rfl
  | cons p rest ih =>
    intro ts hdec
    rw [buildTilesE, buildTiles, processfileE_ok p.1 p.2 (hdec p (by simp))]
    exact ih _ (fun q hq => hdec q (by simp [hq]))

lemma buildTilesE_err : ∀ (l : List (ℕ × SrcFile)) (ts : Tileset),
    (∃ p ∈ l, p.2.decodable = false) → ∃ e, buildTilesE ts l = Except.error e := by
  intro l
  induction l with
  | nil => intro ts h; simp at h
  | cons p rest ih =>
    intro ts hbad
    cases hpd : p.2.decodable with
    | false =>
      refine ⟨p.2.name, ?_⟩
      rw [buildTilesE]
      simp [processfileE, mktilepairE, hpd]
    | true =>
      rcases hbad with ⟨q, hq, hqd⟩
      rcases List.mem_cons.mp hq with rfl | hq2
      · rw [hpd] at hqd; exact absurd hqd (by simp)
      · rw [buildTilesE, processfileE_ok p.1 p.2 hpd]
        exact ih _ ⟨q, hq2, hqd⟩

lemma sortfiles_mem (files : List SrcFile) (f : SrcFile) :
    f ∈ sortfiles files ↔ f ∈ files :=
  (List.perm_insertionSort nameLe files).mem_iff

lemma mktilesetE_ok (files : List SrcFile) (hdec : ∀ f ∈ files, f.decodable = true) :
    mktilesetE files = Except.ok (mktilesetPure files) := by
  unfold mktilesetE mktilesetPure
  apply buildTilesE_ok
  intro p hp
  apply hdec
  have h1 : p.2 ∈ (sortfiles files).enum.map Prod.snd := List.mem_map_of_mem _ hp
  rw [List.enum_map_snd] at h1
  exact (sortfiles_mem files p.2).mp h1

lemma mktilesetE_err (files : List SrcFile) (hbad : ∃ f ∈ files, f.decodable = false) :
    ∃ e, mktilesetE files = Except.error e := by
  unfold mktilesetE
  apply buildTilesE_err
  rcases hbad with ⟨f, hf, hfd⟩
  have hf2 : f ∈ sortfiles files := (sortfiles_mem files f).mpr hf
  have hf3 : f ∈ (sortfiles files).enum.map Prod.snd := by
    rw [List.enum_map_snd]
    exact hf2
  rcases List.mem_map.mp hf3 with ⟨p, hp, hpe⟩
  exact ⟨p, hp, by rw [hpe]; exact hfd⟩

/-! ## Helper lemmas: the parameter fold -/

lemma applyParam_fst (st : Option Resampling × List String) (kv : String × String) :
    (applyParam st kv).1 =
      if validResample kv = true then resamplingOfName kv.2 else st.1 := by
  unfold applyParam validResample
  by_cases h1 : strLower kv.1 = "resample"
  · cases h2 : resamplingOfName kv.2 <;> simp [h1, h2]
  · simp [h1]

lemma foldl_applyParam (ps : List (String × String)) :
    ∀ st : Option Resampling × List String,
      (ps.foldl applyParam st).1 =
        match ps.reverse.find? validResample with
        | some kv => resamplingOfName kv.2
        | none => st.1 := by
  induction ps with
  | nil => intro st; rfl
  | cons kv rest ih =>
    intro st
    rw [List.foldl_cons, ih, List.reverse_cons, List.find?_append]
    cases hfind : rest.reverse.find? validResample with
    | some kv2 => simp
    | none =>
      cases hv : validResample kv with
      | true => simp [List.find?, hv, applyParam_fst]
      | false => simp [List.find?, hv, applyParam_fst]

/-! ## Claim theorems -/

/-- C1: For every source image of width `w ≥ 1` and height `h ≥ 1`, the
scaled dimensions computed by `mktilepair` (via the two-step fit: primary
scale along the longer axis, then shrunk by the ratio of the box bound to
the floor of the overflowing scaled dimension) satisfy
`w_scaled ≤ TILE_CONTENTWIDTH` and `h_scaled ≤ TILE_CONTENTHEIGHT`. -/
theorem scaled_content_fits (w h : ℤ) (hw : 1 ≤ w) (hh : 1 ≤ h) :
    (scaledDims w h).1 ≤ TILE_CONTENTWIDTH ∧ (scaledDims w h).2 ≤ TILE_CONTENTHEIGHT := by
  unfold scaledDims scaleFor
  by_cases hlw : h < w
  · rw [if_pos hlw]
    exact ⟨(fit_le TILE_CONTENTWIDTH TILE_CONTENTHEIGHT w h (by decide) (by decide) hw hh).1,
           (fit_le TILE_CONTENTWIDTH TILE_CONTENTHEIGHT w h (by decide) (by decide) hw hh).2⟩
  · rw [if_neg hlw]
    exact ⟨(fit_le TILE_CONTENTHEIGHT TILE_CONTENTWIDTH h w (by decide) (by decide) hh hw).2,
           (fit_le TILE_CONTENTHEIGHT TILE_CONTENTWIDTH h w (by decide) (by decide) hh hw).1⟩

/-- Witness for C1 at the concrete size 640 × 480. -/
theorem scaled_content_fits_witness :
    (1 : ℤ) ≤ 640 ∧ (1 : ℤ) ≤ 480 ∧
      ((scaledDims 640 480).1 ≤ TILE_CONTENTWIDTH ∧ (scaledDims 640 480).2 ≤ TILE_CONTENTHEIGHT) :=
  ⟨by decide, by decide, scaled_content_fits 640 480 (by decide) (by decide)⟩

/-- C8: For every source image of width `w ≥ 1` and height `h ≥ 1`, both
scaled dimensions are the floors of `w` and `h` multiplied by one common
positive scale factor, so each differs from the exactly-scaled value by
less than one pixel (the rounding tolerance within which the aspect ratio
is preserved). -/
theorem aspect_ratio_preserved (w h : ℤ) (hw : 1 ≤ w) (hh : 1 ≤ h) :
    ∃ s : ℚ, 0 < s ∧
      (scaledDims w h).1 = ⌊s * (w : ℚ)⌋ ∧ (scaledDims w h).2 = ⌊s * (h : ℚ)⌋ ∧
      s * (w : ℚ) - 1 < ((scaledDims w h).1 : ℚ) ∧ ((scaledDims w h).1 : ℚ) ≤ s * (w : ℚ) ∧
      s * (h : ℚ) - 1 < ((scaledDims w h).2 : ℚ) ∧ ((scaledDims w h).2 : ℚ) ≤ s * (h : ℚ) := by
  have hs := scaleFor_pos w h hw hh
  have hw0 : (0 : ℚ) ≤ (w : ℚ) := by exact_mod_cast le_trans (by norm_num) hw
  have hh0 : (0 : ℚ) ≤ (h : ℚ) := by exact_mod_cast le_trans (by norm_num) hh
  have h1 : (scaledDims w h).1 = ⌊scaleFor w h * (w : ℚ)⌋ :=
    pyint_of_nonneg _ (mul_nonneg hs.le hw0)
  have h2 : (scaledDims w h).2 = ⌊scaleFor w h * (h : ℚ)⌋ :=
    pyint_of_nonneg _ (mul_nonneg hs.le hh0)
  refine ⟨scaleFor w h, hs, h1, h2, ?_, ?_, ?_, ?_⟩
  · rw [h1]
    have := Int.lt_floor_add_one (scaleFor w h * (w : ℚ))
    linarith
  · rw [h1]
    exact Int.floor_le (scaleFor w h * (w : ℚ))
  · rw [h2]
    have := Int.lt_floor_add_one (scaleFor w h * (h : ℚ))
    linarith
  · rw [h2]
    exact Int.floor_le (scaleFor w h * (h : ℚ))

/-- Witness for C8 at the concrete size 99 × 100. -/
theorem aspect_ratio_preserved_witness :
    (1 : ℤ) ≤ 99 ∧ (1 : ℤ) ≤ 100 ∧
      (∃ s : ℚ, 0 < s ∧
        (scaledDims 99 100).1 = ⌊s * ((99 : ℤ) : ℚ)⌋ ∧
        (scaledDims 99 100).2 = ⌊s * ((100 : ℤ) : ℚ)⌋ ∧
        s * ((99 : ℤ) : ℚ) - 1 < ((scaledDims 99 100).1 : ℚ) ∧
        ((scaledDims 99 100).1 : ℚ) ≤ s * ((99 : ℤ) : ℚ) ∧
        s * ((100 : ℤ) : ℚ) - 1 < ((scaledDims 99 100).2 : ℚ) ∧
        ((scaledDims 99 100).2 : ℚ) ≤ s * ((100 : ℤ) : ℚ)) :=
  ⟨by decide, by decide, aspect_ratio_preserved 99 100 (by decide) (by decide)⟩

/-- C4: `check_bonus_group` returns `some 1` exactly on `[33, 37)`, `some 2`
exactly on `[38, 42)` and `none` otherwise; in particular 33–36 map to
group 1, 38–41 map to group 2, and 0, 32, 37, 42 map to none, so no index
belongs to both groups. -/
theorem bonus_group_ranges :
    (∀ i : ℤ,
      (check_bonus_group i = some 1 ↔ 33 ≤ i ∧ i < 37) ∧
      (check_bonus_group i = some 2 ↔ 38 ≤ i ∧ i < 42) ∧
      (check_bonus_group i = none ↔ ¬((33 ≤ i ∧ i < 37) ∨ (38 ≤ i ∧ i < 42)))) ∧
    check_bonus_group 33 = some 1 ∧ check_bonus_group 34 = some 1 ∧
    check_bonus_group 35 = some 1 ∧ check_bonus_group 36 = some 1 ∧
    check_bonus_group 38 = some 2 ∧ check_bonus_group 39 = some 2 ∧
    check_bonus_group 40 = some 2 ∧ check_bonus_group 41 = some 2 ∧
    check_bonus_group 0 = none ∧ check_bonus_group 32 = none ∧
    check_bonus_group 37 = none ∧ check_bonus_group 42 = none := by
  refine ⟨fun i => ?_, by decide, by decide, by decide, by decide, by decide, by decide,
    by decide, by decide, by decide, by decide, by decide, by decide⟩
  unfold check_bonus_group BONUS_GROUP_1_INDEX BONUS_GROUP_2_INDEX
  split_ifs with hg1 hg2 <;> refine ⟨?_, ?_, ?_⟩ <;> simp <;> omega

/-- C5: For every source image, both tiles of the pair returned by
`mktilepair` have canvas dimensions exactly `TILE_WIDTH × TILE_HEIGHT`:
pasting onto a fresh copy of the blank (respectively blank-selected)
background never changes the canvas size. -/
theorem tile_canvas_dims (source : String) (w h : ℤ) (r : Option Resampling) :
    (mktilepair source w h r).1.width = TILE_WIDTH ∧
    (mktilepair source w h r).1.height = TILE_HEIGHT ∧
    (mktilepair source w h r).2.width = TILE_WIDTH ∧
    (mktilepair source w h r).2.height = TILE_HEIGHT :=
  ⟨rfl, rfl, rfl, rfl⟩

/-- C6: For every source image, the paste offset equals
`x = TILE_CONTENTXOFFSET + (TILE_WIDTH - w_scaled) // 2` and
`y = TILE_CONTENTYOFFSET + (TILE_HEIGHT - h_scaled) // 2` (floor
division), and the same offset is used for the normal and the selected
variant. -/
theorem paste_offset_centered (source : String) (w h : ℤ) (r : Option Resampling) :
    ((mktilepair source w h r).1.pastes.map Prod.snd =
      [(TILE_CONTENTXOFFSET + (TILE_WIDTH - (scaledDims w h).1).fdiv 2,
        TILE_CONTENTYOFFSET + (TILE_HEIGHT - (scaledDims w h).2).fdiv 2)]) ∧
    ((mktilepair source w h r).2.pastes.map Prod.snd =
      [(TILE_CONTENTXOFFSET + (TILE_WIDTH - (scaledDims w h).1).fdiv 2,
        TILE_CONTENTYOFFSET + (TILE_HEIGHT - (scaledDims w h).2).fdiv 2)]) ∧
    (mktilepair source w h r).1.pastes.map Prod.snd =
      (mktilepair source w h r).2.pastes.map Prod.snd :=
  ⟨rfl, rfl, rfl⟩

/-- C3: `parseparams` on `31-x__resample_NEAREST.png` stores `NEAREST` and
emits no message; on `31-x__resample_BOGUS.png` it stores nothing and emits
exactly one message, and the printed diagnostic block (the offending
basename plus the message) names both `resample` and `BOGUS`; on
`31-x__foo_bar.png` it stores nothing and emits exactly the one message
naming the unknown key `foo`. -/
theorem parseparams_examples :
    (parseparams "31-x__resample_NEAREST.png").1 = some Resampling.NEAREST ∧
    (parseparams "31-x__resample_NEAREST.png").2 = [] ∧
    (parseparams "31-x__resample_BOGUS.png").1 = none ∧
    (parseparams "31-x__resample_BOGUS.png").2 = [invalidResampleMsg] ∧
    listContains "resample".data (parse_diagnostics "31-x__resample_BOGUS.png").data = true ∧
    listContains "BOGUS".data (parse_diagnostics "31-x__resample_BOGUS.png").data = true ∧
    (parseparams "31-x__foo_bar.png").1 = none ∧
    (parseparams "31-x__foo_bar.png").2 = [unknownParamMsg "foo"] ∧
    listContains "foo".data (parse_diagnostics "31-x__foo_bar.png").data = true := by
  decide

/-- C10: the parameter segments found in the filename are folded left to
right into the parsed mapping, so the stored `resample` value is the last
occurrence with a valid value, and an invalid occurrence adds a message
without clearing an earlier valid value; concretely, a filename with
`resample_NEAREST` then `resample_BOX` parses to `BOX`, while
`resample_NEAREST` then `resample_BOGUS` parses to `NEAREST` plus one
invalid-value message. -/
theorem resample_last_valid_occurrence_wins :
    (∀ basename : String, (parseparams basename).1 = lastValidResample (findall basename)) ∧
    (parseparams "31-x__resample_NEAREST__resample_BOX.png").1 = some Resampling.BOX ∧
    (parseparams "31-x__resample_NEAREST__resample_BOX.png").2 = [] ∧
    (parseparams "31-x__resample_NEAREST__resample_BOGUS.png").1 = some Resampling.NEAREST ∧
    (parseparams "31-x__resample_NEAREST__resample_BOGUS.png").2 = [invalidResampleMsg] := by
  refine ⟨fun b => ?_, by decide, by decide, by decide, by decide⟩
  unfold parseparams lastValidResample
  exact foldl_applyParam (findall b) (none, [])

/-- C7: the assembler sorts the directory contents lexicographically by
filename and, for the file at zero-based sorted position `i`, pastes the
normal tile at `(i * TILE_WIDTH, 0)` and the selected tile at
`(i * TILE_WIDTH, TILE_HEIGHT)`, left to right in filename order. -/
theorem tiles_pasted_in_sorted_order (files : List SrcFile)
    (hdec : ∀ f ∈ files, f.decodable = true) :
    mktilesetE files = Except.ok (mktilesetPure files) ∧
    List.Sorted nameLe (sortfiles files) ∧
    (sortfiles files).Perm files ∧
    (mktilesetPure files).pastes = (sortfiles files).enum.flatMap pasteOps := by
  refine ⟨mktilesetE_ok files hdec, List.sorted_insertionSort nameLe files,
    List.perm_insertionSort nameLe files, ?_⟩
  unfold mktilesetPure
  rw [buildTiles_pastes]
  rfl

/-- Witness for C7 on a concrete unsorted three-file directory. -/
theorem tiles_pasted_in_sorted_order_witness :
    (∀ f ∈ filesW, f.decodable = true) ∧
    (mktilesetE filesW = Except.ok (mktilesetPure filesW) ∧
     List.Sorted nameLe (sortfiles filesW) ∧
     (sortfiles filesW).Perm filesW ∧
     (mktilesetPure filesW).pastes = (sortfiles filesW).enum.flatMap pasteOps) :=
  ⟨by decide, tiles_pasted_in_sorted_order filesW (by decide)⟩

/-- C9: the single output write of `main` happens only after `mktileset`
has returned the fully assembled canvas: if the pipeline raises (for any
file), no output file is written; on success exactly the one final write
happens. -/
theorem output_written_only_on_success (files : List SrcFile) (out : String) :
    (∀ e, mktilesetE files = Except.error e → mainWrites files out = []) ∧
    (∀ ts, mktilesetE files = Except.ok ts → mainWrites files out = [(out, ts)]) ∧
    ((∃ f ∈ files, f.decodable = false) → mainWrites files out = []) := by
  refine ⟨?_, ?_, ?_⟩
  · intro e he
    unfold mainWrites
    rw [he]
  · intro ts hts
    unfold mainWrites
    rw [hts]
  · intro hbad
    rcases mktilesetE_err files hbad with ⟨e, he⟩
    unfold mainWrites
    rw [he]

/-- Witness for C9 on a directory containing one undecodable file. -/
theorem output_written_only_on_success_witness :
    (∃ f ∈ badFiles, f.decodable = false) ∧ mainWrites badFiles "tileset.png" = [] := by
  have hbad : ∃ f ∈ badFiles, f.decodable = false :=
    ⟨{ name := "bad.png", w := 1, h := 1, decodable := false }, by simp [badFiles], rfl⟩
  exact ⟨hbad, (output_written_only_on_success badFiles "tileset.png").2.2 hbad⟩

/-- C2 (evaluation at the failing input): on a directory of exactly 41
valid images, the assembled canvas holds 82 pastes (41 per row), the
framed pastes are exactly those at x-positions `33..36 × TILE_WIDTH` (group
1 colors) and `38..40 × TILE_WIDTH` (group 2 colors) in both rows — 14
framed pastes, i.e. 7 framed tile indices, not the 8 the documentation
promises — and no paste exists at `41 * TILE_WIDTH`, so the group-2 range
`[38, 42)` is truncated by the 41-file layout. -/
theorem bonus_frames_on_41_files :
    mktilesetE files41 = Except.ok (mktilesetPure files41) ∧
    (mktilesetPure files41).pastes.length = 82 ∧
    ((mktilesetPure files41).pastes.filter (fun p => !p.1.frames.isEmpty)).map
        (fun p => (p.2, p.1.frames.map FrameOp.outline)) =
      [((3168, 0), ["#d819ea"]), ((3168, 132), ["#f58bff"]),
       ((3264, 0), ["#d819ea"]), ((3264, 132), ["#f58bff"]),
       ((3360, 0), ["#d819ea"]), ((3360, 132), ["#f58bff"]),
       ((3456, 0), ["#d819ea"]), ((3456, 132), ["#f58bff"]),
       ((3648, 0), ["#1dbf4e"]), ((3648, 132), ["#77e998"]),
       ((3744, 0), ["#1dbf4e"]), ((3744, 132), ["#77e998"]),
       ((3840, 0), ["#1dbf4e"]), ((3840, 132), ["#77e998"])] ∧
    ((mktilesetPure files41).pastes.filter (fun p => decide (p.2.1 = 41 * TILE_WIDTH))).length = 0 := by
  refine ⟨mktilesetE_ok files41 (by decide), by decide, by decide, by decide⟩
